import Mathlib

/-!
Verification development for the auto-batching embedding proxy.

The Rust sources are shallowly embedded:
  * `PendingRequest`, `BatchType`, `BatchInfo`  — src/types.rs and
    src/batch_processor.rs data types (timestamps as `Nat` milliseconds,
    `Instant` arithmetic as truncated `Nat` subtraction);
  * `BatchRequest.prepare_request`               — src/types.rs;
  * `BatchProcessor.build_safe_batch`            — src/batch_processor.rs;
  * `BatchProcessor.process_pending_requests`    — src/batch_processor.rs
    (the draining while-loop, written with structural fuel `q.length`,
    which is proved sufficient);
  * `BatchProcessor.handle_batch_success` / `handle_batch_error`
                                                 — src/batch_processor.rs;
  * the dispatcher select-loop of `run_batch_processor` as a step function
    on an explicit state (queue, batch counter), with arrival and tick
    events carrying a current time;
  * `InferenceError.to_rocket_status` / `message` — src/inference_client.rs;
  * the `/embed` route validation               — src/routes.rs.

Embedding vectors (`Vec<Vec<f32>>` upstream results) are treated
polymorphically: the demultiplexer never inspects them, so an arbitrary
type `α` stands for one embedding vector.
-/

/-- One queued client request (src/types.rs `PendingRequest`): the inputs,
and the monotonic arrival timestamp (milliseconds). The oneshot
`response_sender` is not part of the data model here; deliveries are the
return values of the handlers below. -/
structure PendingRequest where
  inputs : List String
  received_at : Nat
deriving DecidableEq, Repr

/-- The configuration record (src/config.rs `AppConfig`), restricted to the
fields the dispatcher and the `/embed` route read. -/
structure AppConfig where
  max_wait_time_ms : Nat
  max_batch_size : Nat
  batch_check_interval_ms : Nat
  include_batch_info : Bool
  max_inference_inputs : Nat
deriving DecidableEq, Repr

/-- src/types.rs `BatchType`. -/
inductive BatchType where
  | maxBatchSize
  | maxWaitTimeMs
deriving DecidableEq, Repr

/-- src/batch_processor.rs shape of `BatchInfo` (the one constructed in
`process_pending_requests`): `f64` timing fields are modelled as `Nat`
milliseconds; both are `None` at emission time. -/
structure BatchInfo where
  batch_id : Nat
  batch_type : BatchType
  batch_size : Option Nat
  batch_wait_time_ms : Option Nat
  inference_time_ms : Option Nat
  processing_time_ms : Option Nat
deriving DecidableEq, Repr

/-- Total number of inputs carried by a list of pending requests. -/
def sumInputs (l : List PendingRequest) : Nat :=
  (l.map (fun r => r.inputs.length)).sum

/-- src/types.rs `BatchRequest::prepare_request`: concatenate each request's
inputs in batch order into one flat input list. -/
def prepare_request (batch : List PendingRequest) : List String :=
  (batch.map (fun r => r.inputs)).flatten

/-- Rust `slice::get(start..stop)`: `Some` of the subslice iff
`start ≤ stop ∧ stop ≤ len`, else `None`. -/
def sliceGet (E : List α) (start stop : Nat) : Option (List α) :=
  if start ≤ stop ∧ stop ≤ E.length then some ((E.drop start).take (stop - start))
  else none

/-- src/batch_processor.rs `handle_batch_success`, demultiplexing core: walk
the batch with `current_index`, carve `embeddings.get(start_idx..end_idx)`,
defaulting to the empty list (`unwrap_or_default`), and advance
`current_index` to `end_idx` unconditionally. Returns the embedding list
delivered to each request, in batch order. (The surrounding timing /
`BatchInfo` bookkeeping is wall-clock diagnostics and does not affect which
embeddings are delivered.) -/
def handle_batch_success : List PendingRequest → List α → Nat → List (List α)
  | [], _, _ => []
  | r :: rs, embeddings, current_index =>
    let start_idx := current_index
    let end_idx := start_idx + r.inputs.length
    ((sliceGet embeddings start_idx end_idx).getD []) ::
      handle_batch_success rs embeddings end_idx

/-- src/batch_processor.rs `build_safe_batch` accumulation loop: iterate
front-to-back over the queue keeping `batch_size` and `inputs_count`; break
as soon as `batch_size ≥ max_batch_size` or
`inputs_count + r.inputs.len() > max_inference_inputs`; return the final
`batch_size` (the length of the accepted prefix). -/
def buildLoop (config : AppConfig) : List PendingRequest → Nat → Nat → Nat
  | [], batch_size, _ => batch_size
  | r :: rs, batch_size, inputs_count =>
    if config.max_batch_size ≤ batch_size ∨
        config.max_inference_inputs < inputs_count + r.inputs.length then
      batch_size
    else
      buildLoop config rs (batch_size + 1) (inputs_count + r.inputs.length)

/-- src/batch_processor.rs `build_safe_batch`:
`pending_requests.drain(..batch_size).collect()` — returns the accepted
prefix together with the remaining queue. -/
def build_safe_batch (pending_requests : List PendingRequest) (config : AppConfig) :
    List PendingRequest × List PendingRequest :=
  let batch_size := buildLoop config pending_requests 0 0
  (pending_requests.take batch_size, pending_requests.drop batch_size)

/-- src/inference_client.rs `InferenceError` (payloads as rendered strings;
`reqwest::StatusCode` as its numeric code). -/
inductive InferenceError where
  | networkError (e : String)
  | httpError (status : Nat) (body : String)
  | parseError (e : String)
deriving DecidableEq, Repr

/-- src/inference_client.rs `InferenceError::to_rocket_status`:
`NetworkError → 503`, `HttpError` with `400..=499 → 400`, with
`500..=599 → 503`, anything else `→ 500`, `ParseError → 500`
(rocket statuses by their numeric codes). -/
def InferenceError.to_rocket_status : InferenceError → Nat
  | .networkError _ => 503
  | .httpError status _ =>
    if 400 ≤ status ∧ status ≤ 499 then 400
    else if 500 ≤ status ∧ status ≤ 599 then 503
    else 500
  | .parseError _ => 500

/-- src/inference_client.rs `InferenceError::message`. (`StatusCode`'s
`Display` also appends the canonical reason phrase; it is rendered here as
the bare numeric code, which the claims do not depend on.) -/
def InferenceError.message : InferenceError → String
  | .networkError e => "Network error: " ++ e
  | .httpError status body => "HTTP " ++ toString status ++ ": " ++ body
  | .parseError e => "Parse error: " ++ e

/-- src/types.rs `ErrorResponse`. -/
structure ErrorResponse where
  error : String
deriving DecidableEq, Repr

/-- rocket `Custom(status, Json(ErrorResponse))`, statuses as numeric codes. -/
structure CustomError where
  status : Nat
  body : ErrorResponse
deriving DecidableEq, Repr

/-- src/batch_processor.rs `handle_batch_error`: build one error response
from the `InferenceError` and send a clone of it to every request of the
batch. Returns the per-request deliveries in batch order. -/
def handle_batch_error (batch : List PendingRequest) (error : InferenceError) :
    List CustomError :=
  batch.map (fun _ =>
    { status := error.to_rocket_status, body := { error := error.message } })

/-- src/routes.rs `embed`, edge-validation part: `some` rejection (status,
body) or `none` when the request is handed to the dispatcher
(`process_request`). Rocket's `Status::BadRequest` is 400. -/
def embed_validate (config : AppConfig) (inputs : List String) : Option CustomError :=
  if inputs.isEmpty then
    some { status := 400, body := { error := "`inputs` can't be empty" } }
  else if config.max_inference_inputs < inputs.length then
    some { status := 400,
           body := { error := "`inputs` can't be greater than " ++
                       toString config.max_inference_inputs } }
  else none

/-- One batch emission of `process_pending_requests`: the trigger it was
invoked with (the `batch_type` argument), the drained batch handed to the
spawned `process_batch` task, and the optional `BatchInfo`. -/
structure Emitted where
  trigger : BatchType
  batch : List PendingRequest
  info : Option BatchInfo
deriving DecidableEq, Repr

/-- The `BatchInfo` literal built in src/batch_processor.rs
`process_pending_requests` (`ctr` is the value `BATCH_COUNTER.fetch_add`
returns; `batch_wait_time_ms` was precomputed before the loop as
`Some(max_wait_time_ms)` overwritten to `None` for `MaxBatchSize`). -/
def mkBatchInfo (config : AppConfig) (bt : BatchType) (ctr : Nat) (size : Nat) :
    BatchInfo :=
  { batch_id := ctr, batch_type := bt, batch_size := some size,
    batch_wait_time_ms :=
      if bt = BatchType.maxBatchSize then none else some config.max_wait_time_ms,
    inference_time_ms := none, processing_time_ms := none }

/-- src/batch_processor.rs `process_pending_requests` draining while-loop,
with explicit fuel for structural recursion (`drainGo_fuel_sufficient`
below shows `q.length` fuel computes the loop's fixpoint): while the queue
is non-empty, build a safe batch; stop when it is empty; otherwise stamp
the optional `BatchInfo` (incrementing the counter iff it is created) and
emit the batch. Returns (emissions, remaining queue, counter). -/
def drainGo (config : AppConfig) (bt : BatchType) :
    Nat → List PendingRequest → Nat → List Emitted × List PendingRequest × Nat
  | 0, q, ctr => ([], q, ctr)
  | fuel + 1, q, ctr =>
    if q.isEmpty then ([], q, ctr)
    else
      let n := buildLoop config q 0 0
      if n = 0 then ([], q, ctr)
      else
        let info :=
          if config.include_batch_info then some (mkBatchInfo config bt ctr n) else none
        let ctr2 := if config.include_batch_info then ctr + 1 else ctr
        let rest := drainGo config bt fuel (q.drop n) ctr2
        (⟨bt, q.take n, info⟩ :: rest.1, rest.2)

/-- src/batch_processor.rs `process_pending_requests` on an explicit
(queue, counter) state. -/
def process_pending_requests (config : AppConfig) (bt : BatchType)
    (q : List PendingRequest) (ctr : Nat) :
    List Emitted × List PendingRequest × Nat :=
  drainGo config bt q.length q ctr

/-- The state owned by the dispatcher task of `run_batch_processor`:
the pending queue and the `BATCH_COUNTER` value (initialized at 1). -/
structure DispatcherState where
  queue : List PendingRequest
  counter : Nat
deriving DecidableEq, Repr

/-- The two `tokio::select!` branches of `run_batch_processor`: a request
arriving on the channel, or the periodic `batch_interval` tick. -/
inductive Event where
  | arrival (r : PendingRequest)
  | tick
deriving DecidableEq, Repr

/-- src/batch_processor.rs `handle_max_wait_time_ms`: if the queue has a
front request whose age (`received_at.elapsed()`, i.e. `now − received_at`)
reaches `max_wait_time_ms`, drain with trigger `MaxWaitTimeMs`. -/
def handle_max_wait_time_ms (config : AppConfig) (now : Nat) (st : DispatcherState) :
    List Emitted × DispatcherState :=
  match st.queue with
  | [] => ([], st)
  | oldest :: _ =>
    if config.max_wait_time_ms ≤ now - oldest.received_at then
      let res := process_pending_requests config BatchType.maxWaitTimeMs st.queue st.counter
      (res.1, ⟨res.2.1, res.2.2⟩)
    else ([], st)

/-- The arrival select-branch of `run_batch_processor`: push the request,
then if `len(queue) ≥ max_batch_size` drain with trigger `MaxBatchSize`.
A tick changes nothing in this phase. -/
def arrival_branch (config : AppConfig) (e : Event) (st : DispatcherState) :
    List Emitted × DispatcherState :=
  match e with
  | .tick => ([], st)
  | .arrival r =>
    let q := st.queue ++ [r]
    if config.max_batch_size ≤ q.length then
      let res := process_pending_requests config BatchType.maxBatchSize q st.counter
      (res.1, ⟨res.2.1, res.2.2⟩)
    else ([], ⟨q, st.counter⟩)

/-- One iteration of the `run_batch_processor` loop: handle the select
branch, then unconditionally run `handle_max_wait_time_ms`. -/
def dispatcher_step (config : AppConfig) (e : Event) (now : Nat) (st : DispatcherState) :
    List Emitted × DispatcherState :=
  let a := arrival_branch config e st
  let w := handle_max_wait_time_ms config now a.2
  (a.1 ++ w.1, w.2)

/-- A run of the dispatcher loop over a timed event trace, collecting all
emissions. -/
def dispatcher_run (config : AppConfig) :
    List (Event × Nat) → DispatcherState → List Emitted × DispatcherState
  | [], st => ([], st)
  | (e, t) :: evs, st =>
    let s := dispatcher_step config e t st
    let rest := dispatcher_run config evs s.2
    (s.1 ++ rest.1, rest.2)

/-- Process start: empty queue, `BATCH_COUNTER` at 1
(`AtomicU64::new(1)`). -/
def init_state : DispatcherState := { queue := [], counter := 1 }

/-- src/types.rs second `BatchInfo` shape (no `processing_time_ms`). -/
structure BatchInfoT where
  batch_id : Nat
  batch_type : BatchType
  batch_size : Option Nat
  batch_wait_time_ms : Option Nat
  inference_time_ms : Option Nat
deriving DecidableEq, Repr

/-- src/types.rs `BatchInfo::new`, with the value its `BATCH_COUNTER`
would yield passed explicitly as `ctr`. -/
def BatchInfoT.new (config : AppConfig) (bt : BatchType) (batch_size : Nat)
    (ctr : Nat) : Option BatchInfoT :=
  let batch_wait_time_ms :=
    if bt = BatchType.maxWaitTimeMs then some config.max_wait_time_ms else none
  if config.include_batch_info then
    some { batch_id := ctr, batch_type := bt, batch_size := some batch_size,
           batch_wait_time_ms := batch_wait_time_ms, inference_time_ms := none }
  else none

/-! ## Basic lemmas -/

@[simp]
theorem sumInputs_nil : sumInputs [] = 0 := rfl

@[simp]
theorem sumInputs_cons (r : PendingRequest) (l : List PendingRequest) :
    sumInputs (r :: l) = r.inputs.length + sumInputs l := by
  simp [sumInputs]

theorem sumInputs_append (a b : List PendingRequest) :
    sumInputs (a ++ b) = sumInputs a + sumInputs b := by
  induction a with
  | nil => simp
  | cons r rs ih => simp [ih]; omega

theorem prepare_request_length (batch : List PendingRequest) :
    (prepare_request batch).length = sumInputs batch := by
  simp [prepare_request, sumInputs, Function.comp_def]

theorem buildLoop_ge (config : AppConfig) :
    ∀ (q : List PendingRequest) (b i : Nat), b ≤ buildLoop config q b i := by
  intro q
  induction q with
  | nil => intro b i; exact Nat.le_refl b
  | cons r rs ih =>
    intro b i
    simp only [buildLoop]
    split
    · exact Nat.le_refl b
    · exact Nat.le_trans (Nat.le_succ b) (ih (b + 1) (i + r.inputs.length))

theorem buildLoop_le (config : AppConfig) :
    ∀ (q : List PendingRequest) (b i : Nat), buildLoop config q b i ≤ b + q.length := by
  intro q
  induction q with
  | nil => intro b i; simp [buildLoop]
  | cons r rs ih =>
    intro b i
    simp only [buildLoop]
    split
    · simp
    · have := ih (b + 1) (i + r.inputs.length)
      simp only [List.length_cons]
      omega

theorem buildLoop_le_max (config : AppConfig) :
    ∀ (q : List PendingRequest) (b i : Nat), b ≤ config.max_batch_size →
      buildLoop config q b i ≤ config.max_batch_size := by
  intro q
  induction q with
  | nil => intro b i hb; exact hb
  | cons r rs ih =>
    intro b i hb
    simp only [buildLoop]
    split
    · exact hb
    · rename_i hcond
      push_neg at hcond
      exact ih (b + 1) (i + r.inputs.length) (by omega)

theorem buildLoop_sum (config : AppConfig) :
    ∀ (q : List PendingRequest) (b i : Nat), i ≤ config.max_inference_inputs →
      i + sumInputs (q.take (buildLoop config q b i - b)) ≤ config.max_inference_inputs := by
  intro q
  induction q with
  | nil => intro b i hi; simp [buildLoop, hi]
  | cons r rs ih =>
    intro b i hi
    simp only [buildLoop]
    split
    · simp [hi]
    · rename_i hcond
      push_neg at hcond
      have hge := buildLoop_ge config rs (b + 1) (i + r.inputs.length)
      have hstep : buildLoop config rs (b + 1) (i + r.inputs.length) - b =
          (buildLoop config rs (b + 1) (i + r.inputs.length) - (b + 1)) + 1 := by omega
      rw [hstep]
      simp only [List.take_succ_cons, sumInputs_cons]
      have := ih (b + 1) (i + r.inputs.length) hcond.2
      omega

theorem buildLoop_stop (config : AppConfig) :
    ∀ (q : List PendingRequest) (b i : Nat),
      buildLoop config q b i - b < q.length →
      config.max_batch_size ≤ buildLoop config q b i ∨
      config.max_inference_inputs <
        i + sumInputs (q.take (buildLoop config q b i - b)) +
          (q.getD (buildLoop config q b i - b) ⟨[], 0⟩).inputs.length := by
  intro q
  induction q with
  | nil => intro b i h; simp [buildLoop] at h
  | cons r rs ih =>
    intro b i h
    by_cases hcond : config.max_batch_size ≤ b ∨
        config.max_inference_inputs < i + r.inputs.length
    · have hb : buildLoop config (r :: rs) b i = b := by
        simp only [buildLoop]; rw [if_pos hcond]
      rw [hb] at h ⊢
      simp only [Nat.sub_self, List.take_zero, sumInputs_nil, List.getD_cons_zero]
      omega
    · have hb : buildLoop config (r :: rs) b i =
          buildLoop config rs (b + 1) (i + r.inputs.length) := by
        simp only [buildLoop]; rw [if_neg hcond]
      rw [hb] at h ⊢
      have hge := buildLoop_ge config rs (b + 1) (i + r.inputs.length)
      have hstep : buildLoop config rs (b + 1) (i + r.inputs.length) - b =
          (buildLoop config rs (b + 1) (i + r.inputs.length) - (b + 1)) + 1 := by omega
      rw [hstep] at h ⊢
      simp only [List.length_cons] at h
      have := ih (b + 1) (i + r.inputs.length) (by omega)
      simp only [List.take_succ_cons, sumInputs_cons, List.getD_cons_succ]
      omega

theorem headD_drop (q : List PendingRequest) (n : Nat) (d : PendingRequest) :
    (q.drop n).headD d = q.getD n d := by
  induction q generalizing n with
  | nil => cases n <;> rfl
  | cons a as ih =>
    cases n with
    | zero => rfl
    | succ m => simp [ih m]

theorem drop_ne_nil_iff (q : List PendingRequest) (n : Nat) :
    q.drop n ≠ [] ↔ n < q.length := by
  rw [ne_eq, List.drop_eq_nil_iff]
  omega

/-! ## Claims about `build_safe_batch` -/

/-- Claim C10: `build_safe_batch` is total and in-bounds for every pending
queue and configuration (including `max_batch_size = 0`, zero-length input
lists and arbitrary `max_inference_inputs`): the accepted-prefix length
never exceeds the number of pending requests, so draining the prefix is
within bounds and the function always returns batch and remainder whose
concatenation is the original queue. -/
theorem C10_build_safe_batch_total (config : AppConfig) (q : List PendingRequest) :
    buildLoop config q 0 0 ≤ q.length ∧
    (build_safe_batch q config).1.length = buildLoop config q 0 0 ∧
    (build_safe_batch q config).1 ++ (build_safe_batch q config).2 = q := by
  have hle : buildLoop config q 0 0 ≤ q.length := by
    have := buildLoop_le config q 0 0
    omega
  refine ⟨hle, ?_, ?_⟩
  · simp [build_safe_batch, List.length_take]
    omega
  · simp [build_safe_batch, List.take_append_drop]

/-- Claim C2: for a configuration with `max_batch_size ≥ 1` and a non-empty
queue whose front request fits in `max_inference_inputs`, the batch
returned by `build_safe_batch` has between 1 and `max_batch_size` requests
and its total input count is at most `max_inference_inputs`. -/
theorem C2_batch_limits (config : AppConfig) (r : PendingRequest)
    (rs : List PendingRequest)
    (hmbs : 1 ≤ config.max_batch_size)
    (hr : r.inputs.length ≤ config.max_inference_inputs) :
    1 ≤ (build_safe_batch (r :: rs) config).1.length ∧
    (build_safe_batch (r :: rs) config).1.length ≤ config.max_batch_size ∧
    sumInputs (build_safe_batch (r :: rs) config).1 ≤ config.max_inference_inputs := by
  have hfirst : buildLoop config (r :: rs) 0 0 =
      buildLoop config rs 1 r.inputs.length := by
    simp only [buildLoop]
    rw [if_neg]
    · simp
    · push_neg
      omega
  have hge : 1 ≤ buildLoop config (r :: rs) 0 0 := by
    rw [hfirst]
    exact buildLoop_ge config rs 1 r.inputs.length
  have hmax : buildLoop config (r :: rs) 0 0 ≤ config.max_batch_size :=
    buildLoop_le_max config (r :: rs) 0 0 (Nat.zero_le _)
  have hlen : buildLoop config (r :: rs) 0 0 ≤ (r :: rs).length := by
    have := buildLoop_le config (r :: rs) 0 0
    omega
  have hsum := buildLoop_sum config (r :: rs) 0 0 (Nat.zero_le _)
  refine ⟨?_, ?_, ?_⟩
  · simp only [build_safe_batch, List.length_take]
    omega
  · simp only [build_safe_batch, List.length_take]
    omega
  · simpa using hsum

/-- Claim C2 witness: default-like configuration, one pending request. -/
theorem C2_batch_limits_witness :
    1 ≤ (build_safe_batch [{ inputs := ["What is NLP"], received_at := 0 }]
          { max_wait_time_ms := 500, max_batch_size := 8, batch_check_interval_ms := 10,
            include_batch_info := false, max_inference_inputs := 32 }).1.length ∧
    (build_safe_batch [{ inputs := ["What is NLP"], received_at := 0 }]
          { max_wait_time_ms := 500, max_batch_size := 8, batch_check_interval_ms := 10,
            include_batch_info := false, max_inference_inputs := 32 }).1.length ≤ 8 ∧
    sumInputs (build_safe_batch [{ inputs := ["What is NLP"], received_at := 0 }]
          { max_wait_time_ms := 500, max_batch_size := 8, batch_check_interval_ms := 10,
            include_batch_info := false, max_inference_inputs := 32 }).1 ≤ 32 :=
  C2_batch_limits
    { max_wait_time_ms := 500, max_batch_size := 8, batch_check_interval_ms := 10,
      include_batch_info := false, max_inference_inputs := 32 }
    { inputs := ["What is NLP"], received_at := 0 } []
    (by decide) (by decide)

/-- Claim C3: `build_safe_batch` is a greedy FIFO prefix-take: the batch
followed by the remaining queue is exactly the original queue (nothing
lost, duplicated or reordered), and if anything remains, taking the next
request too would violate the count limit (`count + 1 > max_batch_size`)
or the input-sum limit. -/
theorem C3_greedy_take (config : AppConfig) (q : List PendingRequest) :
    (build_safe_batch q config).1 ++ (build_safe_batch q config).2 = q ∧
    ((build_safe_batch q config).2 ≠ [] →
      config.max_batch_size < (build_safe_batch q config).1.length + 1 ∨
      config.max_inference_inputs <
        sumInputs (build_safe_batch q config).1 +
          ((build_safe_batch q config).2.headD ⟨[], 0⟩).inputs.length) := by
  have hle : buildLoop config q 0 0 ≤ q.length := by
    have := buildLoop_le config q 0 0
    omega
  refine ⟨by simp [build_safe_batch, List.take_append_drop], ?_⟩
  intro hne
  have hlt : buildLoop config q 0 0 < q.length := by
    rw [build_safe_batch] at hne
    exact (drop_ne_nil_iff q _).mp hne
  have hstop := buildLoop_stop config q 0 0 (by omega)
  have hlen : (build_safe_batch q config).1.length = buildLoop config q 0 0 := by
    simp only [build_safe_batch, List.length_take]
    omega
  rw [hlen]
  rcases hstop with h | h
  · left; omega
  · right
    simpa [build_safe_batch, headD_drop] using h

/-- Claim C3 witness: `max_batch_size = 1` with two queued requests leaves a
non-empty remainder, and the stop condition holds at the first untaken
request. -/
theorem C3_greedy_take_witness :
    (build_safe_batch
        [{ inputs := ["a"], received_at := 0 }, { inputs := ["b"], received_at := 3 }]
        { max_wait_time_ms := 500, max_batch_size := 1, batch_check_interval_ms := 10,
          include_batch_info := false, max_inference_inputs := 32 }).1 ++
      (build_safe_batch
        [{ inputs := ["a"], received_at := 0 }, { inputs := ["b"], received_at := 3 }]
        { max_wait_time_ms := 500, max_batch_size := 1, batch_check_interval_ms := 10,
          include_batch_info := false, max_inference_inputs := 32 }).2 =
      [{ inputs := ["a"], received_at := 0 }, { inputs := ["b"], received_at := 3 }] ∧
    (1 < (build_safe_batch
        [{ inputs := ["a"], received_at := 0 }, { inputs := ["b"], received_at := 3 }]
        { max_wait_time_ms := 500, max_batch_size := 1, batch_check_interval_ms := 10,
          include_batch_info := false, max_inference_inputs := 32 }).1.length + 1 ∨
      32 < sumInputs (build_safe_batch
        [{ inputs := ["a"], received_at := 0 }, { inputs := ["b"], received_at := 3 }]
        { max_wait_time_ms := 500, max_batch_size := 1, batch_check_interval_ms := 10,
          include_batch_info := false, max_inference_inputs := 32 }).1 +
        ((build_safe_batch
        [{ inputs := ["a"], received_at := 0 }, { inputs := ["b"], received_at := 3 }]
        { max_wait_time_ms := 500, max_batch_size := 1, batch_check_interval_ms := 10,
          include_batch_info := false, max_inference_inputs := 32 }).2.headD ⟨[], 0⟩).inputs.length) :=
  ⟨(C3_greedy_take
      { max_wait_time_ms := 500, max_batch_size := 1, batch_check_interval_ms := 10,
        include_batch_info := false, max_inference_inputs := 32 }
      [{ inputs := ["a"], received_at := 0 }, { inputs := ["b"], received_at := 3 }]).1,
   (C3_greedy_take
      { max_wait_time_ms := 500, max_batch_size := 1, batch_check_interval_ms := 10,
        include_batch_info := false, max_inference_inputs := 32 }
      [{ inputs := ["a"], received_at := 0 }, { inputs := ["b"], received_at := 3 }]).2
     (by decide)⟩

/-! ## Claims about `handle_batch_success` -/

theorem handle_batch_success_length (rs : List PendingRequest) (E : List α) :
    ∀ c, (handle_batch_success rs E c).length = rs.length := by
  induction rs with
  | nil => intro c; rfl
  | cons r tl ih => intro c; simp [handle_batch_success, ih]

theorem handle_batch_success_getD (E : List α) :
    ∀ (rs : List PendingRequest) (c k : Nat), k < rs.length →
      (handle_batch_success rs E c).getD k [] =
        (sliceGet E (c + sumInputs (rs.take k))
          (c + sumInputs (rs.take k) + (rs.getD k ⟨[], 0⟩).inputs.length)).getD [] := by
  intro rs
  induction rs with
  | nil => intro c k hk; simp at hk
  | cons r tl ih =>
    intro c k hk
    cases k with
    | zero =>
      simp [handle_batch_success]
    | succ m =>
      have hm : m < tl.length := by simpa using hk
      simp only [handle_batch_success, List.getD_cons_succ, List.take_succ_cons,
        sumInputs_cons]
      rw [ih (c + r.inputs.length) m hm]
      have harith : c + r.inputs.length + sumInputs (tl.take m) =
          c + (r.inputs.length + sumInputs (tl.take m)) := by omega
      rw [harith]

theorem handle_batch_success_flatten (E : List α) :
    ∀ (rs : List PendingRequest) (c : Nat), c + sumInputs rs ≤ E.length →
      (handle_batch_success rs E c).flatten = (E.drop c).take (sumInputs rs) := by
  intro rs
  induction rs with
  | nil => intro c h; simp [handle_batch_success]
  | cons r tl ih =>
    intro c h
    simp only [sumInputs_cons] at h
    have hin : sliceGet E c (c + r.inputs.length) =
        some ((E.drop c).take (c + r.inputs.length - c)) := by
      rw [sliceGet, if_pos]
      exact ⟨by omega, by omega⟩
    simp only [handle_batch_success, List.flatten_cons, hin, Option.getD_some]
    rw [ih (c + r.inputs.length) (by omega)]
    have hc : c + r.inputs.length - c = r.inputs.length := by omega
    rw [hc, sumInputs_cons, List.take_add]
    congr 1
    rw [List.drop_drop]

theorem sumInputs_take_getD_le (rs : List PendingRequest) :
    ∀ k, k < rs.length →
      sumInputs (rs.take k) + (rs.getD k ⟨[], 0⟩).inputs.length ≤ sumInputs rs := by
  induction rs with
  | nil => intro k hk; simp at hk
  | cons r tl ih =>
    intro k hk
    cases k with
    | zero => simp
    | succ m =>
      have hm : m < tl.length := by simpa using hk
      have := ih m hm
      simp only [List.take_succ_cons, sumInputs_cons, List.getD_cons_succ]
      omega

/-- Claim C1: demultiplex postcondition of `handle_batch_success`. The
response delivered to the `k`-th request of the batch is the slice of the
upstream result `E` at offset `sum of input lengths of requests before k`,
of declared length `len(inputs_k)`; if that range exceeds `E` the delivered
embedding list is empty, and the offset still advances by the declared
length (it is the sum of the declared lengths, independent of `E`). When
`len(E)` equals the input count of the flat request built by
`prepare_request`, concatenating the per-request deliveries in batch order
reproduces `E` exactly and each request receives exactly `len(inputs_k)`
embeddings — its own inputs' embeddings in submission order. -/
theorem C1_demultiplex (batch : List PendingRequest) (E : List α) :
    (handle_batch_success batch E 0).length = batch.length ∧
    (∀ k, k < batch.length →
      (handle_batch_success batch E 0).getD k [] =
        if sumInputs (batch.take k) + (batch.getD k ⟨[], 0⟩).inputs.length ≤ E.length then
          (E.drop (sumInputs (batch.take k))).take ((batch.getD k ⟨[], 0⟩).inputs.length)
        else []) ∧
    (E.length = (prepare_request batch).length →
      (handle_batch_success batch E 0).flatten = E ∧
      ∀ k, k < batch.length →
        ((handle_batch_success batch E 0).getD k []).length =
          (batch.getD k ⟨[], 0⟩).inputs.length) := by
  refine ⟨handle_batch_success_length batch E 0, ?_, ?_⟩
  · intro k hk
    rw [handle_batch_success_getD E batch 0 k hk]
    simp only [Nat.zero_add]
    by_cases hrange :
        sumInputs (batch.take k) + (batch.getD k ⟨[], 0⟩).inputs.length ≤ E.length
    · rw [if_pos hrange, sliceGet, if_pos ⟨by omega, hrange⟩, Option.getD_some]
      congr 1
      omega
    · rw [if_neg hrange, sliceGet, if_neg, Option.getD_none]
      intro hcon
      exact hrange hcon.2
  · intro hlen
    rw [prepare_request_length] at hlen
    constructor
    · rw [handle_batch_success_flatten E batch 0 (by omega)]
      simp [← hlen]
    · intro k hk
      rw [handle_batch_success_getD E batch 0 k hk]
      have hrange := sumInputs_take_getD_le batch k hk
      simp only [Nat.zero_add]
      rw [sliceGet, if_pos ⟨by omega, by omega⟩, Option.getD_some]
      simp only [List.length_take, List.length_drop]
      omega

/-- Claim C1 witness: a batch of two requests with 1 and 2 inputs and an
upstream result of matching total length 3. -/
theorem C1_demultiplex_witness :
    (handle_batch_success
        [({ inputs := ["a"], received_at := 0 } : PendingRequest),
         { inputs := ["b", "c"], received_at := 5 }] ([10, 20, 30] : List Nat) 0).flatten =
      [10, 20, 30] ∧
    ((handle_batch_success
        [({ inputs := ["a"], received_at := 0 } : PendingRequest),
         { inputs := ["b", "c"], received_at := 5 }] ([10, 20, 30] : List Nat) 0).getD 1 []).length = 2 := by
  have h := (C1_demultiplex
      [({ inputs := ["a"], received_at := 0 } : PendingRequest),
       { inputs := ["b", "c"], received_at := 5 }] ([10, 20, 30] : List Nat)).2.2 (by decide)
  refine ⟨h.1, ?_⟩
  rw [h.2 1 (by decide)]
  decide

/-! ## Claims about error handling -/

/-- Claim C7: when an upstream call fails, `handle_batch_error` delivers to
every request of the batch one and the same error response, whose status
follows the fixed mapping (`NetworkError → 503`; `HttpError` 4xx `→ 400`;
`HttpError` 5xx `→ 503`; `HttpError` other `→ 500`; `ParseError → 500`)
and whose body is the error's description. -/
theorem C7_error_broadcast (batch : List PendingRequest) (error : InferenceError) :
    (handle_batch_error batch error).length = batch.length ∧
    (∀ resp ∈ handle_batch_error batch error,
      resp = { status := error.to_rocket_status, body := { error := error.message } }) ∧
    (∀ e, InferenceError.to_rocket_status (.networkError e) = 503) ∧
    (∀ s b, 400 ≤ s → s ≤ 499 → InferenceError.to_rocket_status (.httpError s b) = 400) ∧
    (∀ s b, 500 ≤ s → s ≤ 599 → InferenceError.to_rocket_status (.httpError s b) = 503) ∧
    (∀ s b, ¬(400 ≤ s ∧ s ≤ 499) → ¬(500 ≤ s ∧ s ≤ 599) →
      InferenceError.to_rocket_status (.httpError s b) = 500) ∧
    (∀ e, InferenceError.to_rocket_status (.parseError e) = 500) := by
  refine ⟨by simp [handle_batch_error], ?_, fun e => rfl, ?_, ?_, ?_, fun e => rfl⟩
  · intro resp hresp
    simp only [handle_batch_error, List.mem_map] at hresp
    obtain ⟨r, _, hr⟩ := hresp
    exact hr.symm
  · intro s b h1 h2
    simp [InferenceError.to_rocket_status, h1, h2]
  · intro s b h1 h2
    simp only [InferenceError.to_rocket_status]
    rw [if_neg (by omega), if_pos ⟨h1, h2⟩]
  · intro s b h1 h2
    simp only [InferenceError.to_rocket_status]
    rw [if_neg h1, if_neg h2]

/-- Claim C7 witness: a two-request batch failing with a network error,
plus the 4xx mapping at status 404. -/
theorem C7_error_broadcast_witness :
    ({ status := 503, body := { error := "Network error: connection refused" } } : CustomError) =
      { status := (InferenceError.networkError "connection refused").to_rocket_status,
        body := { error := (InferenceError.networkError "connection refused").message } } ∧
    InferenceError.to_rocket_status (.httpError 404 "not found") = 400 :=
  ⟨(C7_error_broadcast
      [{ inputs := ["a"], received_at := 0 }, { inputs := ["b"], received_at := 1 }]
      (InferenceError.networkError "connection refused")).2.1
      { status := 503, body := { error := "Network error: connection refused" } }
      (by decide),
   (C7_error_broadcast [] (InferenceError.networkError "x")).2.2.2.1 404 "not found"
      (by decide) (by decide)⟩

/-- Claim C4 (code_bug evidence): the `/embed` edge check rejects a request
whose inputs count exceeds `max_inference_inputs` with HTTP 400
(`Status::BadRequest`), not 413 as the spec and the repository's own test
(`tests/embed_validation.rs`, asserting `Status::PayloadTooLarge`)
require; a request with exactly `max_inference_inputs` inputs passes the
edge check into the dispatcher. Evaluated at `max_inference_inputs = 20`
with 25 and 20 inputs. -/
theorem C4_edge_status_eval :
    embed_validate
        { max_wait_time_ms := 500, max_batch_size := 8, batch_check_interval_ms := 10,
          include_batch_info := false, max_inference_inputs := 20 }
        (List.replicate 25 "What is Deep Learning?") =
      some { status := 400, body := { error := "`inputs` can't be greater than 20" } } ∧
    (embed_validate
        { max_wait_time_ms := 500, max_batch_size := 8, batch_check_interval_ms := 10,
          include_batch_info := false, max_inference_inputs := 20 }
        (List.replicate 25 "What is Deep Learning?")).getD
        { status := 0, body := { error := "" } } ≠
      { status := 413, body := { error := "`inputs` can't be greater than 20" } } ∧
    embed_validate
        { max_wait_time_ms := 500, max_batch_size := 8, batch_check_interval_ms := 10,
          include_batch_info := false, max_inference_inputs := 20 }
        (List.replicate 20 "What is Deep Learning?") = none := by
  refine ⟨by decide, by decide, by decide⟩

/-! ## The draining loop `process_pending_requests` -/

theorem drainGo_fuel_sufficient (config : AppConfig) (bt : BatchType) :
    ∀ (fuel : Nat) (q : List PendingRequest) (ctr : Nat), q.length ≤ fuel →
      drainGo config bt fuel q ctr = process_pending_requests config bt q ctr := by
  intro fuel
  induction fuel using Nat.strong_induction_on with
  | _ fuel ih =>
    intro q ctr hfuel
    cases fuel with
    | zero =>
      have hq : q = [] := List.length_eq_zero.mp (Nat.le_zero.mp hfuel)
      subst hq
      rfl
    | succ f =>
      cases q with
      | nil => rfl
      | cons a as =>
        show drainGo config bt (f + 1) (a :: as) ctr =
          drainGo config bt (as.length + 1) (a :: as) ctr
        simp only [drainGo, List.isEmpty_cons, Bool.false_eq_true, if_false]
        by_cases hn : buildLoop config (a :: as) 0 0 = 0
        · simp [hn]
        · have hlen1 : (List.drop (buildLoop config (a :: as) 0 0) (a :: as)).length ≤ f := by
            simp only [List.length_drop, List.length_cons]
            simp only [List.length_cons] at hfuel
            omega
          have hlen2 : (List.drop (buildLoop config (a :: as) 0 0) (a :: as)).length ≤
              as.length := by
            simp only [List.length_drop, List.length_cons]
            omega
          simp only [if_neg hn]
          rw [ih f (by omega) _ _ hlen1, ih as.length (by
            simp only [List.length_cons] at hfuel
            omega) _ _ hlen2]

theorem drainGo_trigger_info (config : AppConfig) (bt : BatchType) :
    ∀ (fuel : Nat) (q : List PendingRequest) (ctr : Nat) (em : Emitted),
      em ∈ (drainGo config bt fuel q ctr).1 →
      em.trigger = bt ∧
      ∀ i, em.info = some i →
        i.batch_type = em.trigger ∧
        i.batch_wait_time_ms =
          (if em.trigger = BatchType.maxBatchSize then none
           else some config.max_wait_time_ms) := by
  intro fuel
  induction fuel with
  | zero => intro q ctr em hem; simp [drainGo] at hem
  | succ f ihf =>
    intro q ctr em hem
    cases q with
    | nil => simp [drainGo] at hem
    | cons a as =>
      simp only [drainGo, List.isEmpty_cons, Bool.false_eq_true, if_false] at hem
      by_cases hn : buildLoop config (a :: as) 0 0 = 0
      · simp [hn] at hem
      · simp only [if_neg hn, List.mem_cons] at hem
        rcases hem with rfl | hmem
        · refine ⟨rfl, ?_⟩
          intro i hi
          simp only at hi
          by_cases hinc : config.include_batch_info
          · rw [if_pos hinc] at hi
            cases hi
            exact ⟨rfl, by simp only [mkBatchInfo]⟩
          · rw [if_neg hinc] at hi
            cases hi
        · exact ihf _ _ _ hmem

theorem range_one_append (s m n : Nat) :
    List.range' s m ++ List.range' (s + m) n = List.range' s (m + n) := by
  have h := List.range'_append s m n 1
  rw [Nat.one_mul] at h
  rw [h, Nat.add_comm]

/-- Counter/batch-id bookkeeping of one draining call: with
`include_batch_info` on, the emitted infos carry consecutive batch ids
starting at the incoming counter and the counter advances by the number of
emitted batches; with it off, no info is attached and the counter is
untouched. -/
theorem drainGo_ids (config : AppConfig) (bt : BatchType) :
    ∀ (fuel : Nat) (q : List PendingRequest) (ctr : Nat),
      (config.include_batch_info = true →
        ((drainGo config bt fuel q ctr).1.filterMap Emitted.info).map BatchInfo.batch_id =
          List.range' ctr (drainGo config bt fuel q ctr).1.length ∧
        (drainGo config bt fuel q ctr).2.2 =
          ctr + (drainGo config bt fuel q ctr).1.length) ∧
      (config.include_batch_info = false →
        (drainGo config bt fuel q ctr).1.filterMap Emitted.info = [] ∧
        (drainGo config bt fuel q ctr).2.2 = ctr) := by
  intro fuel
  induction fuel with
  | zero => intro q ctr; simp [drainGo]
  | succ f ihf =>
    intro q ctr
    cases q with
    | nil => simp [drainGo]
    | cons a as =>
      simp only [drainGo, List.isEmpty_cons, Bool.false_eq_true, if_false]
      by_cases hn : buildLoop config (a :: as) 0 0 = 0
      · simp [hn]
      · simp only [if_neg hn]
        constructor
        · intro hinc
          have ih := (ihf (List.drop (buildLoop config (a :: as) 0 0) (a :: as))
            (ctr + 1)).1 hinc
          simp only [hinc, if_pos, List.filterMap_cons, List.length_cons]
          constructor
          · simp only [List.map_cons, mkBatchInfo, ih.1]
            rw [List.range'_succ]
          · rw [ih.2]
            omega
        · intro hinc
          have ih := (ihf (List.drop (buildLoop config (a :: as) 0 0) (a :: as))
            ctr).2 hinc
          simp only [hinc, Bool.false_eq_true, if_false, List.filterMap_cons]
          exact ⟨ih.1, ih.2⟩

/-! ## Claim C9: head-of-line fail-safe -/

/-- Claim C9: if the front request of the queue alone exceeds
`max_inference_inputs`, `build_safe_batch` returns an empty batch
(`buildLoop` stops at 0) and `process_pending_requests` terminates
immediately with no emission (no upstream task spawned), leaving the queue
and counter unchanged — for either trigger. -/
theorem C9_head_blocked (config : AppConfig) (bt : BatchType) (r : PendingRequest)
    (rs : List PendingRequest) (ctr : Nat)
    (h : config.max_inference_inputs < r.inputs.length) :
    buildLoop config (r :: rs) 0 0 = 0 ∧
    (build_safe_batch (r :: rs) config).1 = [] ∧
    process_pending_requests config bt (r :: rs) ctr = ([], r :: rs, ctr) := by
  have hbuild : buildLoop config (r :: rs) 0 0 = 0 := by
    simp only [buildLoop]
    rw [if_pos]
    right
    omega
  refine ⟨hbuild, ?_, ?_⟩
  · simp [build_safe_batch, hbuild]
  · simp [process_pending_requests, drainGo, hbuild]

/-- Claim C9 witness: a head request with 3 inputs against
`max_inference_inputs = 2`. -/
theorem C9_head_blocked_witness :
    process_pending_requests
        { max_wait_time_ms := 500, max_batch_size := 8, batch_check_interval_ms := 10,
          include_batch_info := false, max_inference_inputs := 2 }
        BatchType.maxWaitTimeMs
        [{ inputs := ["a", "b", "c"], received_at := 0 },
         { inputs := ["d"], received_at := 1 }] 7 =
      ([], [{ inputs := ["a", "b", "c"], received_at := 0 },
            { inputs := ["d"], received_at := 1 }], 7) :=
  (C9_head_blocked
    { max_wait_time_ms := 500, max_batch_size := 8, batch_check_interval_ms := 10,
      include_batch_info := false, max_inference_inputs := 2 }
    BatchType.maxWaitTimeMs
    { inputs := ["a", "b", "c"], received_at := 0 }
    [{ inputs := ["d"], received_at := 1 }] 7 (by decide)).2.2

/-! ## The dispatcher loop -/

/-- Case analysis of `handle_max_wait_time_ms`: either the queue is empty or
the front request is younger than `max_wait_time_ms` and nothing happens,
or the front request's age reached the limit and the queue is drained with
trigger `MaxWaitTimeMs`. -/
theorem hmwt_cases (config : AppConfig) (now : Nat) (st : DispatcherState) :
    (handle_max_wait_time_ms config now st = ([], st) ∧
      (st.queue = [] ∨
        now - (st.queue.headD ⟨[], 0⟩).received_at < config.max_wait_time_ms)) ∨
    (st.queue ≠ [] ∧
      config.max_wait_time_ms ≤ now - (st.queue.headD ⟨[], 0⟩).received_at ∧
      handle_max_wait_time_ms config now st =
        ((process_pending_requests config BatchType.maxWaitTimeMs st.queue st.counter).1,
         ⟨(process_pending_requests config BatchType.maxWaitTimeMs st.queue st.counter).2.1,
          (process_pending_requests config BatchType.maxWaitTimeMs st.queue st.counter).2.2⟩)) := by
  cases hq : st.queue with
  | nil =>
    left
    constructor
    · simp only [handle_max_wait_time_ms, hq]
    · left; rfl
  | cons oldest tl =>
    by_cases hage : config.max_wait_time_ms ≤ now - oldest.received_at
    · right
      refine ⟨by simp [hq], by simp [hq, hage], ?_⟩
      simp only [handle_max_wait_time_ms, hq, if_pos hage]
    · left
      constructor
      · simp only [handle_max_wait_time_ms, hq, if_neg hage]
      · right
        simp only [hq, List.headD_cons]
        omega

/-- Case analysis of the arrival select-branch: a tick does nothing; an
arrival enqueues and drains with trigger `MaxBatchSize` iff the queue
length after enqueueing reaches `max_batch_size`. -/
theorem arrival_branch_cases (config : AppConfig) (e : Event) (st : DispatcherState) :
    (arrival_branch config e st = ([], st) ∧ e = Event.tick) ∨
    (∃ r, e = Event.arrival r ∧
      ((st.queue.length + 1 < config.max_batch_size ∧
        arrival_branch config e st = ([], ⟨st.queue ++ [r], st.counter⟩)) ∨
       (config.max_batch_size ≤ st.queue.length + 1 ∧
        arrival_branch config e st =
          ((process_pending_requests config BatchType.maxBatchSize
              (st.queue ++ [r]) st.counter).1,
           ⟨(process_pending_requests config BatchType.maxBatchSize
               (st.queue ++ [r]) st.counter).2.1,
            (process_pending_requests config BatchType.maxBatchSize
               (st.queue ++ [r]) st.counter).2.2⟩)))) := by
  cases e with
  | tick => exact Or.inl ⟨rfl, rfl⟩
  | arrival r =>
    right
    refine ⟨r, rfl, ?_⟩
    have hlen : (st.queue ++ [r]).length = st.queue.length + 1 := by simp
    by_cases hc : config.max_batch_size ≤ (st.queue ++ [r]).length
    · right
      refine ⟨by omega, ?_⟩
      simp only [arrival_branch, if_pos hc]
    · left
      refine ⟨by omega, ?_⟩
      simp only [arrival_branch, if_neg hc]

theorem dispatcher_step_info_shape (config : AppConfig) (e : Event) (now : Nat)
    (st : DispatcherState) :
    ∀ em ∈ (dispatcher_step config e now st).1, ∀ i, em.info = some i →
      i.batch_type = em.trigger ∧
      i.batch_wait_time_ms =
        (if em.trigger = BatchType.maxBatchSize then none
         else some config.max_wait_time_ms) := by
  intro em hem i hi
  have hsplit : (dispatcher_step config e now st).1 =
      (arrival_branch config e st).1 ++
        (handle_max_wait_time_ms config now (arrival_branch config e st).2).1 := rfl
  rw [hsplit, List.mem_append] at hem
  rcases hem with h | h
  · rcases arrival_branch_cases config e st with ⟨heq, _⟩ | ⟨r, _, ⟨_, heq⟩ | ⟨_, heq⟩⟩
    · rw [heq] at h; simp at h
    · rw [heq] at h; simp at h
    · rw [heq] at h
      exact (drainGo_trigger_info config BatchType.maxBatchSize _ _ _ em h).2 i hi
  · rcases hmwt_cases config now (arrival_branch config e st).2 with ⟨heq, _⟩ | ⟨_, _, heq⟩
    · rw [heq] at h; simp at h
    · rw [heq] at h
      exact (drainGo_trigger_info config BatchType.maxWaitTimeMs _ _ _ em h).2 i hi

theorem dispatcher_run_info_shape (config : AppConfig) :
    ∀ (evs : List (Event × Nat)) (st : DispatcherState),
      ∀ em ∈ (dispatcher_run config evs st).1, ∀ i, em.info = some i →
        i.batch_type = em.trigger ∧
        i.batch_wait_time_ms =
          (if em.trigger = BatchType.maxBatchSize then none
           else some config.max_wait_time_ms) := by
  intro evs
  induction evs with
  | nil => intro st em hem; simp [dispatcher_run] at hem
  | cons ev rest ih =>
    intro st em hem
    obtain ⟨e, t⟩ := ev
    simp only [dispatcher_run, List.mem_append] at hem
    rcases hem with h | h
    · exact dispatcher_step_info_shape config e t st em h
    · exact ih _ em h

/-- Claim C8: every `BatchInfo` emitted by the dispatcher has
`batch_wait_time_ms` absent (`none`) when `batch_type = MaxBatchSize`, and
present and equal to the configured `max_wait_time_ms` when
`batch_type = MaxWaitTimeMs`; the `BatchInfo::new` constructor of
src/types.rs satisfies the same property. -/
theorem C8_batch_wait_time_field (config : AppConfig) (evs : List (Event × Nat)) :
    (∀ em ∈ (dispatcher_run config evs init_state).1, ∀ i, em.info = some i →
      (i.batch_type = BatchType.maxBatchSize → i.batch_wait_time_ms = none) ∧
      (i.batch_type = BatchType.maxWaitTimeMs →
        i.batch_wait_time_ms = some config.max_wait_time_ms)) ∧
    (∀ (bt : BatchType) (size ctr : Nat) (i : BatchInfoT),
      BatchInfoT.new config bt size ctr = some i →
      (i.batch_type = BatchType.maxBatchSize → i.batch_wait_time_ms = none) ∧
      (i.batch_type = BatchType.maxWaitTimeMs →
        i.batch_wait_time_ms = some config.max_wait_time_ms)) := by
  constructor
  · intro em hem i hi
    have h := dispatcher_run_info_shape config evs init_state em hem i hi
    constructor
    · intro htype
      rw [h.2, if_pos (h.1 ▸ htype)]
    · intro htype
      rw [h.2, if_neg]
      rw [← h.1, htype]
      intro hcon
      cases hcon
  · intro bt size ctr i hi
    rw [BatchInfoT.new] at hi
    by_cases hinc : config.include_batch_info
    · rw [if_pos hinc] at hi
      cases hi
      cases bt <;> simp
    · rw [if_neg hinc] at hi
      cases hi

/-- Claim C8 witness: one arrival under `max_batch_size = 1` with
`include_batch_info` enabled emits one `MaxBatchSize` batch whose info
omits `batch_wait_time_ms`. -/
theorem C8_batch_wait_time_field_witness :
    ({ batch_id := 1, batch_type := BatchType.maxBatchSize, batch_size := some 1,
       batch_wait_time_ms := none, inference_time_ms := none,
       processing_time_ms := none } : BatchInfo).batch_wait_time_ms = none :=
  ((C8_batch_wait_time_field
      { max_wait_time_ms := 500, max_batch_size := 1, batch_check_interval_ms := 10,
        include_batch_info := true, max_inference_inputs := 32 }
      [(Event.arrival { inputs := ["a"], received_at := 0 }, 0)]).1
    { trigger := BatchType.maxBatchSize,
      batch := [{ inputs := ["a"], received_at := 0 }],
      info := some { batch_id := 1, batch_type := BatchType.maxBatchSize,
                     batch_size := some 1, batch_wait_time_ms := none,
                     inference_time_ms := none, processing_time_ms := none } }
    (by decide)
    { batch_id := 1, batch_type := BatchType.maxBatchSize, batch_size := some 1,
      batch_wait_time_ms := none, inference_time_ms := none,
      processing_time_ms := none }
    (by decide)).1 (by decide)

theorem arrival_branch_ids (config : AppConfig) (e : Event) (st : DispatcherState) :
    (config.include_batch_info = true →
      ((arrival_branch config e st).1.filterMap Emitted.info).map BatchInfo.batch_id =
        List.range' st.counter (arrival_branch config e st).1.length ∧
      (arrival_branch config e st).2.counter =
        st.counter + (arrival_branch config e st).1.length) ∧
    (config.include_batch_info = false →
      (arrival_branch config e st).1.filterMap Emitted.info = [] ∧
      (arrival_branch config e st).2.counter = st.counter) := by
  rcases arrival_branch_cases config e st with ⟨heq, _⟩ | ⟨r, _, ⟨_, heq⟩ | ⟨_, heq⟩⟩
  · rw [heq]; simp
  · rw [heq]; simp
  · rw [heq]
    exact drainGo_ids config BatchType.maxBatchSize
      (st.queue ++ [r]).length (st.queue ++ [r]) st.counter

theorem hmwt_ids (config : AppConfig) (now : Nat) (st : DispatcherState) :
    (config.include_batch_info = true →
      ((handle_max_wait_time_ms config now st).1.filterMap Emitted.info).map
          BatchInfo.batch_id =
        List.range' st.counter (handle_max_wait_time_ms config now st).1.length ∧
      (handle_max_wait_time_ms config now st).2.counter =
        st.counter + (handle_max_wait_time_ms config now st).1.length) ∧
    (config.include_batch_info = false →
      (handle_max_wait_time_ms config now st).1.filterMap Emitted.info = [] ∧
      (handle_max_wait_time_ms config now st).2.counter = st.counter) := by
  rcases hmwt_cases config now st with ⟨heq, _⟩ | ⟨_, _, heq⟩
  · rw [heq]; simp
  · rw [heq]
    exact drainGo_ids config BatchType.maxWaitTimeMs
      st.queue.length st.queue st.counter

theorem dispatcher_step_ids (config : AppConfig) (e : Event) (now : Nat)
    (st : DispatcherState) :
    (config.include_batch_info = true →
      ((dispatcher_step config e now st).1.filterMap Emitted.info).map
          BatchInfo.batch_id =
        List.range' st.counter (dispatcher_step config e now st).1.length ∧
      (dispatcher_step config e now st).2.counter =
        st.counter + (dispatcher_step config e now st).1.length) ∧
    (config.include_batch_info = false →
      (dispatcher_step config e now st).1.filterMap Emitted.info = [] ∧
      (dispatcher_step config e now st).2.counter = st.counter) := by
  have hsplit : (dispatcher_step config e now st).1 =
      (arrival_branch config e st).1 ++
        (handle_max_wait_time_ms config now (arrival_branch config e st).2).1 := rfl
  have hst2 : (dispatcher_step config e now st).2 =
      (handle_max_wait_time_ms config now (arrival_branch config e st).2).2 := rfl
  have hA := arrival_branch_ids config e st
  have hW := hmwt_ids config now (arrival_branch config e st).2
  constructor
  · intro hinc
    obtain ⟨ha1, ha2⟩ := hA.1 hinc
    obtain ⟨hw1, hw2⟩ := hW.1 hinc
    rw [ha2] at hw1 hw2
    constructor
    · rw [hsplit, List.filterMap_append, List.map_append, ha1, hw1,
        List.length_append, range_one_append]
    · rw [hst2, hw2, hsplit, List.length_append]
      omega
  · intro hinc
    obtain ⟨ha1, ha2⟩ := hA.2 hinc
    obtain ⟨hw1, hw2⟩ := hW.2 hinc
    constructor
    · rw [hsplit, List.filterMap_append, ha1, hw1, List.nil_append]
    · rw [hst2, hw2, ha2]

theorem dispatcher_run_ids (config : AppConfig) :
    ∀ (evs : List (Event × Nat)) (st : DispatcherState),
      (config.include_batch_info = true →
        ((dispatcher_run config evs st).1.filterMap Emitted.info).map
            BatchInfo.batch_id =
          List.range' st.counter (dispatcher_run config evs st).1.length ∧
        (dispatcher_run config evs st).2.counter =
          st.counter + (dispatcher_run config evs st).1.length) ∧
      (config.include_batch_info = false →
        (dispatcher_run config evs st).1.filterMap Emitted.info = [] ∧
        (dispatcher_run config evs st).2.counter = st.counter) := by
  intro evs
  induction evs with
  | nil => intro st; simp [dispatcher_run]
  | cons ev rest ih =>
    intro st
    obtain ⟨e, t⟩ := ev
    have hsplit : (dispatcher_run config ((e, t) :: rest) st).1 =
        (dispatcher_step config e t st).1 ++
          (dispatcher_run config rest (dispatcher_step config e t st).2).1 := rfl
    have hst2 : (dispatcher_run config ((e, t) :: rest) st).2 =
        (dispatcher_run config rest (dispatcher_step config e t st).2).2 := rfl
    have hS := dispatcher_step_ids config e t st
    have hR := ih (dispatcher_step config e t st).2
    constructor
    · intro hinc
      obtain ⟨hs1, hs2⟩ := hS.1 hinc
      obtain ⟨hr1, hr2⟩ := hR.1 hinc
      rw [hs2] at hr1 hr2
      constructor
      · rw [hsplit, List.filterMap_append, List.map_append, hs1, hr1,
          List.length_append, range_one_append]
      · rw [hst2, hr2, hsplit, List.length_append]
        omega
    · intro hinc
      obtain ⟨hs1, hs2⟩ := hS.2 hinc
      obtain ⟨hr1, hr2⟩ := hR.2 hinc
      constructor
      · rw [hsplit, List.filterMap_append, hs1, hr1, List.nil_append]
      · rw [hst2, hr2, hs2]

/-- Claim C6 counterexample: with `include_batch_info` disabled
(the default configuration), one arrival under `max_batch_size = 1` makes
the dispatcher emit one batch, yet `BATCH_COUNTER` stays at 1 — the
counter is not incremented by one for this emitted batch (it is only
touched when a `BatchInfo` is created). -/
theorem C6_counter_not_incremented_on_emission :
    (dispatcher_run
        { max_wait_time_ms := 500, max_batch_size := 1, batch_check_interval_ms := 10,
          include_batch_info := false, max_inference_inputs := 32 }
        [(Event.arrival { inputs := ["a"], received_at := 0 }, 0)] init_state).1.length = 1 ∧
    (dispatcher_run
        { max_wait_time_ms := 500, max_batch_size := 1, batch_check_interval_ms := 10,
          include_batch_info := false, max_inference_inputs := 32 }
        [(Event.arrival { inputs := ["a"], received_at := 0 }, 0)] init_state).2.counter = 1 := by
  decide

/-- Claim C6 (amended): `BATCH_COUNTER` starts at 1; while
`include_batch_info` is enabled it is incremented by exactly one per
emitted batch (each batch's `BatchInfo` carrying the pre-increment value,
so the ids emitted over any run are `1, 2, …`), and when disabled no
`BatchInfo` is created and the counter is untouched; in all cases the
`batch_id` values carried in emitted `BatchInfo`s are strictly increasing
in emission order (hence unique). -/
theorem C6_batch_ids_monotone (config : AppConfig) (evs : List (Event × Nat)) :
    (((dispatcher_run config evs init_state).1.filterMap Emitted.info).map
        BatchInfo.batch_id).Pairwise (· < ·) ∧
    (config.include_batch_info = true →
      ((dispatcher_run config evs init_state).1.filterMap Emitted.info).map
          BatchInfo.batch_id =
        List.range' 1 (dispatcher_run config evs init_state).1.length ∧
      (dispatcher_run config evs init_state).2.counter =
        1 + (dispatcher_run config evs init_state).1.length) ∧
    (config.include_batch_info = false →
      (dispatcher_run config evs init_state).1.filterMap Emitted.info = [] ∧
      (dispatcher_run config evs init_state).2.counter = 1) := by
  have h := dispatcher_run_ids config evs init_state
  refine ⟨?_, h.1, h.2⟩
  cases hinc : config.include_batch_info with
  | false =>
    rw [(h.2 hinc).1]
    simp
  | true =>
    rw [(h.1 hinc).1]
    exact List.pairwise_lt_range' _ _

/-- Claim C6 witness: one arrival with `include_batch_info` enabled under
`max_batch_size = 1`: the single emitted batch carries id 1 and the
counter ends at 2. -/
theorem C6_batch_ids_monotone_witness :
    ((dispatcher_run
        { max_wait_time_ms := 500, max_batch_size := 1, batch_check_interval_ms := 10,
          include_batch_info := true, max_inference_inputs := 32 }
        [(Event.arrival { inputs := ["a"], received_at := 0 }, 0)]
        init_state).1.filterMap Emitted.info).map BatchInfo.batch_id =
      List.range' 1 (dispatcher_run
        { max_wait_time_ms := 500, max_batch_size := 1, batch_check_interval_ms := 10,
          include_batch_info := true, max_inference_inputs := 32 }
        [(Event.arrival { inputs := ["a"], received_at := 0 }, 0)]
        init_state).1.length ∧
    (dispatcher_run
        { max_wait_time_ms := 500, max_batch_size := 1, batch_check_interval_ms := 10,
          include_batch_info := true, max_inference_inputs := 32 }
        [(Event.arrival { inputs := ["a"], received_at := 0 }, 0)]
        init_state).2.counter =
      1 + (dispatcher_run
        { max_wait_time_ms := 500, max_batch_size := 1, batch_check_interval_ms := 10,
          include_batch_info := true, max_inference_inputs := 32 }
        [(Event.arrival { inputs := ["a"], received_at := 0 }, 0)]
        init_state).1.length :=
  (C6_batch_ids_monotone
    { max_wait_time_ms := 500, max_batch_size := 1, batch_check_interval_ms := 10,
      include_batch_info := true, max_inference_inputs := 32 }
    [(Event.arrival { inputs := ["a"], received_at := 0 }, 0)]).2.1 (by decide)

/-- Claim C5: trigger soundness of one dispatcher loop iteration.
Emissions of the select-branch phase are all tagged `MaxBatchSize` and
occur only when the event is an arrival whose enqueueing makes
`len(queue) ≥ max_batch_size`; emissions of the age phase are all tagged
`MaxWaitTimeMs` and occur only when the queue at that point is non-empty
with front age `now − received_at ≥ max_wait_time_ms`; these two phases
are exactly the emissions of the iteration, and when neither condition
holds the iteration emits nothing. -/
theorem C5_trigger_soundness (config : AppConfig) (e : Event) (now : Nat)
    (st : DispatcherState) :
    (∀ em ∈ (arrival_branch config e st).1, em.trigger = BatchType.maxBatchSize) ∧
    ((arrival_branch config e st).1 ≠ [] →
      ∃ r, e = Event.arrival r ∧ config.max_batch_size ≤ st.queue.length + 1) ∧
    (∀ em ∈ (handle_max_wait_time_ms config now (arrival_branch config e st).2).1,
      em.trigger = BatchType.maxWaitTimeMs) ∧
    ((handle_max_wait_time_ms config now (arrival_branch config e st).2).1 ≠ [] →
      (arrival_branch config e st).2.queue ≠ [] ∧
      config.max_wait_time_ms ≤
        now - ((arrival_branch config e st).2.queue.headD ⟨[], 0⟩).received_at) ∧
    ((dispatcher_step config e now st).1 =
      (arrival_branch config e st).1 ++
        (handle_max_wait_time_ms config now (arrival_branch config e st).2).1) ∧
    ((match e with
      | Event.arrival _ => st.queue.length + 1
      | Event.tick => st.queue.length) < config.max_batch_size →
      ((arrival_branch config e st).2.queue = [] ∨
        now - ((arrival_branch config e st).2.queue.headD ⟨[], 0⟩).received_at <
          config.max_wait_time_ms) →
      (dispatcher_step config e now st).1 = []) := by
  refine ⟨?_, ?_, ?_, ?_, rfl, ?_⟩
  · intro em hem
    rcases arrival_branch_cases config e st with ⟨heq, _⟩ | ⟨r, he, ⟨_, heq⟩ | ⟨_, heq⟩⟩
    · rw [heq] at hem; simp at hem
    · rw [heq] at hem; simp at hem
    · rw [heq] at hem
      exact (drainGo_trigger_info config BatchType.maxBatchSize _ _ _ em hem).1
  · intro hne
    rcases arrival_branch_cases config e st with ⟨heq, _⟩ | ⟨r, he, ⟨_, heq⟩ | ⟨hc, heq⟩⟩
    · rw [heq] at hne; simp at hne
    · rw [heq] at hne; simp at hne
    · exact ⟨r, he, hc⟩
  · intro em hem
    rcases hmwt_cases config now (arrival_branch config e st).2 with
      ⟨heq, _⟩ | ⟨_, _, heq⟩
    · rw [heq] at hem; simp at hem
    · rw [heq] at hem
      exact (drainGo_trigger_info config BatchType.maxWaitTimeMs _ _ _ em hem).1
  · intro hne
    rcases hmwt_cases config now (arrival_branch config e st).2 with
      ⟨heq, _⟩ | ⟨hq, hage, _⟩
    · rw [heq] at hne; simp at hne
    · exact ⟨hq, hage⟩
  · intro h1 h2
    have hA : (arrival_branch config e st).1 = [] := by
      rcases arrival_branch_cases config e st with ⟨heq, _⟩ | ⟨r, he, ⟨_, heq⟩ | ⟨hc, heq⟩⟩
      · rw [heq]
      · rw [heq]
      · subst he
        have h1' : st.queue.length + 1 < config.max_batch_size := h1
        omega
    have hW : (handle_max_wait_time_ms config now (arrival_branch config e st).2).1 = [] := by
      rcases hmwt_cases config now (arrival_branch config e st).2 with
        ⟨heq, _⟩ | ⟨hq, hage, _⟩
      · rw [heq]
      · rcases h2 with h2 | h2
        · exact absurd h2 hq
        · omega
    show (arrival_branch config e st).1 ++
        (handle_max_wait_time_ms config now (arrival_branch config e st).2).1 = []
    rw [hA, hW]
    rfl

/-- Claim C5 witness: an arrival under `max_batch_size = 1` produces a
non-empty `MaxBatchSize` phase, forcing the size-trigger condition. -/
theorem C5_trigger_soundness_witness :
    ∃ r, Event.arrival ({ inputs := ["a"], received_at := 0 } : PendingRequest) =
        Event.arrival r ∧
      ({ max_wait_time_ms := 500, max_batch_size := 1, batch_check_interval_ms := 10,
         include_batch_info := true, max_inference_inputs := 32 } : AppConfig).max_batch_size ≤
        init_state.queue.length + 1 :=
  (C5_trigger_soundness
    { max_wait_time_ms := 500, max_batch_size := 1, batch_check_interval_ms := 10,
      include_batch_info := true, max_inference_inputs := 32 }
    (Event.arrival { inputs := ["a"], received_at := 0 }) 0 init_state).2.1 (by decide)
